import Mathlib

/-!
# Shallow embedding of the episodic RL core

Embedding of `src/action_value.py` (the `TabularActionValue` estimator),
`src/agents/agent.py` (the `Agent` adapter), `src/control.py` (the Sarsa /
ExpectedSarsa / QLearning TD-control rules) and the step structure of
`src/train.py`'s episode loop.

Modelling conventions:
* Python floats are modelled as exact rationals `ℚ`.
* A Python dict `{state: [0]*len(actions) for state in states}` is modelled as
  a total function `σ → List ℚ` together with the domain list `states`;
  the Python membership test `state in dict` becomes `state ∈ states`
  (the dict's key set is exactly the set of elements of `states`, and no
  update ever adds or removes a key).
* `raise ValueError` sites are modelled with an error type distinguishing the
  two raise sites: `Err.DomainError` for `_validate_state`
  (state not in the enumerated domain) and `Err.RangeError` for
  `_validate_action` (action outside `[0, |actions|)`).
* Mutating methods are state-passing: they return the outcome
  (`Except Err Unit`) together with the estimator value after the call, so
  that "raises and leaves the state unchanged" is expressible.
* NumPy's global RNG is modelled as an explicit stream of draws (`RNG`):
  `np.random.rand()` pops one rational from `rands`, `np.random.choice`
  pops one natural from `choices` and uses it as an index into the action
  list (modulo its length).  Python's `and` short-circuits, so
  `if not greedy and np.random.rand() < self.epsilon` consumes no draw when
  `greedy` is true.
-/

/-- The two failure kinds of the estimator's validators
(`_validate_state` and `_validate_action` in `src/action_value.py`). -/
inductive Err : Type where
  | DomainError : Err
  | RangeError : Err
deriving DecidableEq, Repr

/-- `np.max` on a list of rationals (0 on the empty list, which `np.max`
rejects; all theorems that rely on the maximum assume a nonempty list). -/
def listMax : List ℚ → ℚ
  | [] => 0
  | [v] => v
  | v :: w :: rest => max v (listMax (w :: rest))

/-- `np.argmax` on a list of rationals: index of the first maximal element
(0 on the empty list, which `np.argmax` rejects). -/
def argmax : List ℚ → Nat
  | [] => 0
  | [_] => 0
  | v :: w :: rest => if v < listMax (w :: rest) then argmax (w :: rest) + 1 else 0

/-- Explicit random source: a stream of `np.random.rand()` draws (each meant
to lie in `[0,1)`) and a stream of index draws backing `np.random.choice`. -/
structure RNG : Type where
  rands : List ℚ
  choices : List Nat
deriving DecidableEq, Repr

/-- One `np.random.rand()` draw (1 once the modelled stream is exhausted;
1 is never below a valid epsilon, matching a draw that falls in the greedy
branch). -/
def RNG.rand (g : RNG) : ℚ × RNG :=
  (g.rands.headD 1, ⟨g.rands.tail, g.choices⟩)

/-- One index draw backing `np.random.choice` (0 once exhausted). -/
def RNG.choiceIdx (g : RNG) : Nat × RNG :=
  (g.choices.headD 0, ⟨g.rands, g.choices.tail⟩)

/-- The estimator state of `TabularActionValue` (`src/action_value.py`):
the constructor-time configuration (`states`, `actions`, `epsilon`,
`double`), the toggle `flag`, and the two estimate tables. -/
structure TabularActionValue (σ : Type) : Type where
  states : List σ
  actions : List Int
  epsilon : ℚ
  double : Bool
  flag : Nat
  tabular_action_value : σ → List ℚ
  auxiliary_tabular_action_value : σ → List ℚ

namespace TabularActionValue

variable {σ : Type} [DecidableEq σ]

/-- `TabularActionValue.__init__`: both tables map every state to
`[0]*len(actions)` and the toggle starts at 0. -/
def init (states : List σ) (actions : List Int) (epsilon : ℚ) (double : Bool) :
    TabularActionValue σ :=
  { states := states
    actions := actions
    epsilon := epsilon
    double := double
    flag := 0
    tabular_action_value := fun _ => List.replicate actions.length 0
    auxiliary_tabular_action_value := fun _ => List.replicate actions.length 0 }

/-- `_validate_state`: raise `DomainError` when the state is not a key of the
estimate table (equivalently, not in the enumerated state domain). -/
def validate_state (e : TabularActionValue σ) (s : σ) : Except Err Unit :=
  if s ∈ e.states then Except.ok () else Except.error Err.DomainError

/-- `_validate_action`: raise `RangeError` when
`action < 0 or action >= len(self.actions)`. -/
def validate_action (e : TabularActionValue σ) (a : Int) : Except Err Unit :=
  if a < 0 ∨ (e.actions.length : Int) ≤ a then Except.error Err.RangeError
  else Except.ok ()

/-- `get_action_value`: validate, then read the entry of the table selected by
`not self.double or self.flag == 0` (primary) versus the auxiliary table. -/
def get_action_value (e : TabularActionValue σ) (s : σ) (a : Int) :
    Except Err ℚ :=
  match e.validate_state s with
  | Except.error err => Except.error err
  | Except.ok _ =>
    match e.validate_action a with
    | Except.error err => Except.error err
    | Except.ok _ =>
      if !e.double || e.flag == 0 then
        Except.ok ((e.tabular_action_value s).getD a.toNat 0)
      else
        Except.ok ((e.auxiliary_tabular_action_value s).getD a.toNat 0)

/-- In-place `table[state][action] += update` on a function-modelled table. -/
def bumpEntry (f : σ → List ℚ) (s : σ) (a : Nat) (u : ℚ) : σ → List ℚ :=
  fun t => if t = s then (f s).set a ((f s).getD a 0 + u) else f t

/-- `update_action_value`: validate, then add `update` to the selected table's
entry and set the toggle (1 after writing the primary table, 0 after writing
the auxiliary one).  Returns the outcome and the estimator after the call. -/
def update_action_value (e : TabularActionValue σ) (s : σ) (a : Int) (u : ℚ) :
    Except Err Unit × TabularActionValue σ :=
  match e.validate_state s with
  | Except.error err => (Except.error err, e)
  | Except.ok _ =>
    match e.validate_action a with
    | Except.error err => (Except.error err, e)
    | Except.ok _ =>
      if !e.double || e.flag == 0 then
        (Except.ok (),
          { e with
            tabular_action_value := bumpEntry e.tabular_action_value s a.toNat u
            flag := 1 })
      else
        (Except.ok (),
          { e with
            auxiliary_tabular_action_value :=
              bumpEntry e.auxiliary_tabular_action_value s a.toNat u
            flag := 0 })

/-- The list whose `np.argmax` the greedy branch of `choose_next_action`
takes: the elementwise sum `map(add, primary, auxiliary)` of the two tables'
entries in double mode, the primary entry otherwise. -/
def greedy_values (e : TabularActionValue σ) (s : σ) : List ℚ :=
  if e.double then
    List.zipWith (· + ·)
      (e.tabular_action_value s) (e.auxiliary_tabular_action_value s)
  else
    e.tabular_action_value s

/-- `choose_next_action`: validate the state; when not greedy draw one
uniform variate and, if it is below epsilon, return a uniformly drawn element
of `actions`; otherwise return the argmax of the greedy value list.  Returns
the chosen action together with the random stream after the call. -/
def choose_next_action (e : TabularActionValue σ) (s : σ) (greedy : Bool)
    (g : RNG) : Except Err Int × RNG :=
  match e.validate_state s with
  | Except.error err => (Except.error err, g)
  | Except.ok _ =>
    if greedy then
      (Except.ok (argmax (e.greedy_values s) : Int), g)
    else
      let (u, g1) := g.rand
      if u < e.epsilon then
        let (c, g2) := g1.choiceIdx
        (Except.ok (e.actions.getD (c % e.actions.length) 0), g2)
      else
        (Except.ok (argmax (e.greedy_values s) : Int), g1)

/-- The table `get_expected_action_value` and `get_best_action_value` read:
auxiliary when `self.double and self.flag == 0`, primary otherwise. -/
def eval_table (e : TabularActionValue σ) : σ → List ℚ :=
  if e.double && e.flag == 0 then e.auxiliary_tabular_action_value
  else e.tabular_action_value

/-- The loop body of `get_expected_action_value` applied to one table entry:
accumulate `action_value * multiplier` over `enumerate(entry)`, where the
multiplier is `1 - epsilon*(1 - 1/|actions|)` at the argmax index and
`epsilon*1/|actions|` elsewhere. -/
def expectedOfEntry (epsilon : ℚ) (nActions : Nat) (entry : List ℚ) : ℚ :=
  let best := argmax entry
  entry.enum.foldl
    (fun acc p =>
      if p.1 == best then acc + p.2 * (1 - epsilon * (1 - 1 / (nActions : ℚ)))
      else acc + p.2 * (epsilon * 1 / (nActions : ℚ)))
    0

/-- `get_expected_action_value`: validate, then run the accumulation loop on
the toggle-selected table's entry for `state`. -/
def get_expected_action_value (e : TabularActionValue σ) (s : σ) :
    Except Err ℚ :=
  match e.validate_state s with
  | Except.error err => Except.error err
  | Except.ok _ =>
    Except.ok (expectedOfEntry e.epsilon e.actions.length (e.eval_table s))

/-- `get_best_action_value`: validate, then `np.max` of the toggle-selected
table's entry for `state`. -/
def get_best_action_value (e : TabularActionValue σ) (s : σ) :
    Except Err ℚ :=
  match e.validate_state s with
  | Except.error err => Except.error err
  | Except.ok _ => Except.ok (listMax (e.eval_table s))

end TabularActionValue

/-- The slice of the environment protocol that the agent's value queries and
the control algorithms consume (`src/agents/agent.py`, spec §6): the current
(post-transition) agent state, the previous agent state, the latest action
taken and the latest reward. -/
structure EnvView (σ : Type) : Type where
  agent_state : σ
  previous_agent_state : σ
  latest_action : Int
  latest_reward : ℚ

namespace Agent

variable {σ : Type} [DecidableEq σ]

/-- `Agent.get_next_action_value`: sample what would be the next action under
the behavior policy (one fresh `choose_next_action` call, consuming
randomness) and return that action's value, without performing the action. -/
def get_next_action_value (greedy : Bool) (av : TabularActionValue σ)
    (env : EnvView σ) (g : RNG) : Except Err ℚ × RNG :=
  let s := env.agent_state
  let (a?, g1) := av.choose_next_action s greedy g
  match a? with
  | Except.ok a => (av.get_action_value s a, g1)
  | Except.error err => (Except.error err, g1)

/-- `Agent.get_action_value_to_update`: value of the
(previous-state, latest-action) pair the control algorithm is correcting. -/
def get_action_value_to_update (av : TabularActionValue σ) (env : EnvView σ) :
    Except Err ℚ :=
  av.get_action_value env.previous_agent_state env.latest_action

/-- `Agent.get_expected_next_action_value`: the estimator's expected
action-value at the current state. -/
def get_expected_next_action_value (av : TabularActionValue σ)
    (env : EnvView σ) : Except Err ℚ :=
  av.get_expected_action_value env.agent_state

/-- `Agent.get_best_next_action_value`: the estimator's best action-value at
the current state. -/
def get_best_next_action_value (av : TabularActionValue σ) (env : EnvView σ) :
    Except Err ℚ :=
  av.get_best_action_value env.agent_state

/-- `Agent.update_action_value`: forward the control algorithm's scalar to
`estimator.update_action_value(previous_state, latest_action, value)`. -/
def update_action_value (value : ℚ) (av : TabularActionValue σ)
    (env : EnvView σ) : Except Err Unit × TabularActionValue σ :=
  av.update_action_value env.previous_agent_state env.latest_action value

end Agent

namespace Sarsa

variable {σ : Type} [DecidableEq σ]

/-- `Sarsa.update` (`src/control.py`): target
`latest_reward + discount * get_next_action_value`, TD error against the
(previous-state, latest-action) value, then the additive update scaled by
`alpha`.  Returns the outcome, the estimator after the call and the random
stream after the call (the bootstrap sampling consumes randomness). -/
def update (alpha discount : ℚ) (greedy : Bool) (av : TabularActionValue σ)
    (env : EnvView σ) (g : RNG) :
    Except Err Unit × TabularActionValue σ × RNG :=
  let (v?, g1) := Agent.get_next_action_value greedy av env g
  match v? with
  | Except.error err => (Except.error err, av, g1)
  | Except.ok v =>
    let target := env.latest_reward + discount * v
    match Agent.get_action_value_to_update av env with
    | Except.error err => (Except.error err, av, g1)
    | Except.ok q =>
      let td_error := target - q
      let (r, av1) := Agent.update_action_value (alpha * td_error) av env
      (r, av1, g1)

end Sarsa

namespace ExpectedSarsa

variable {σ : Type} [DecidableEq σ]

/-- `ExpectedSarsa.update` (`src/control.py`): target
`latest_reward + discount * get_expected_next_action_value`, then the same
TD-error update.  Consumes no randomness. -/
def update (alpha discount : ℚ) (av : TabularActionValue σ) (env : EnvView σ) :
    Except Err Unit × TabularActionValue σ :=
  match Agent.get_expected_next_action_value av env with
  | Except.error err => (Except.error err, av)
  | Except.ok v =>
    let target := env.latest_reward + discount * v
    match Agent.get_action_value_to_update av env with
    | Except.error err => (Except.error err, av)
    | Except.ok q =>
      let td_error := target - q
      Agent.update_action_value (alpha * td_error) av env

end ExpectedSarsa

namespace QLearning

variable {σ : Type} [DecidableEq σ]

/-- `QLearning.update` (`src/control.py`): target
`latest_reward + discount * get_best_next_action_value`, then the same
TD-error update.  Consumes no randomness. -/
def update (alpha discount : ℚ) (av : TabularActionValue σ) (env : EnvView σ) :
    Except Err Unit × TabularActionValue σ :=
  match Agent.get_best_next_action_value av env with
  | Except.error err => (Except.error err, av)
  | Except.ok v =>
    let target := env.latest_reward + discount * v
    match Agent.get_action_value_to_update av env with
    | Except.error err => (Except.error err, av)
    | Except.ok q =>
      let td_error := target - q
      Agent.update_action_value (alpha * td_error) av env

end QLearning

/-- A minimal concrete environment implementing the protocol of spec §6, used
to exercise the episode loop of `src/train.py` on the spec §8 end-to-end
scenario: a single state `0`, reward `-1` for every move, bookkeeping of the
latest action and reward as in `GridWorld.perform_action`
(`src/gridworld.py`). -/
structure OneStateEnv : Type where
  latest_action : Int
  latest_reward : ℚ
deriving DecidableEq, Repr

namespace OneStateEnv

/-- `get_agent_state` / `get_previous_agent_state`: the single state `0`. -/
def agent_state (_ : OneStateEnv) : Nat := 0

/-- `perform_action`: record the action and the `-1` per-move reward. -/
def perform_action (_ : OneStateEnv) (a : Int) : OneStateEnv :=
  { latest_action := a, latest_reward := -1 }

/-- The `EnvView` this environment exposes to the agent and the controls. -/
def view (env : OneStateEnv) : EnvView Nat :=
  { agent_state := 0
    previous_agent_state := 0
    latest_action := env.latest_action
    latest_reward := env.latest_reward }

/-- `Agent.act_once` over this environment: choose the next action under the
behavior policy at the current state and perform it. -/
def act_once (greedy : Bool) (av : TabularActionValue Nat) (env : OneStateEnv)
    (g : RNG) : Except Err Int × OneStateEnv × RNG :=
  let (a?, g1) := av.choose_next_action env.agent_state greedy g
  match a? with
  | Except.ok a => (Except.ok a, env.perform_action a, g1)
  | Except.error err => (Except.error err, env, g1)

/-- One iteration of the `while` body of `Train.run_episode`
(`src/train.py`) under the Sarsa control: `agent.act_once()` followed by
`control.update(agent, environment)`.  Returns the performed action (for
observation), the estimator, the environment and the random stream after the
iteration. -/
def sarsaStep (alpha discount : ℚ) (greedy : Bool)
    (av : TabularActionValue Nat) (env : OneStateEnv) (g : RNG) :
    Except Err Int × TabularActionValue Nat × OneStateEnv × RNG :=
  match act_once greedy av env g with
  | (Except.error err, env1, g1) => (Except.error err, av, env1, g1)
  | (Except.ok a, env1, g1) =>
    match Sarsa.update alpha discount greedy av env1.view g1 with
    | (Except.error err, av1, g2) => (Except.error err, av1, env1, g2)
    | (Except.ok _, av1, g2) => (Except.ok a, av1, env1, g2)

end OneStateEnv

/-- Spec §3 invariant: every state's entry in either table has exactly
`|actions|` values.  Established at construction and preserved by updates
(`List.set` never resizes). -/
def TabularActionValue.WF {σ : Type} (e : TabularActionValue σ) : Prop :=
  (∀ s, (e.tabular_action_value s).length = e.actions.length) ∧
  (∀ s, (e.auxiliary_tabular_action_value s).length = e.actions.length)

/-- A sequence of `update_action_value` calls (keeping only the estimator
state, as the toggle bookkeeping of spec §3 describes). -/
def TabularActionValue.updateSeq {σ : Type} [DecidableEq σ]
    (e : TabularActionValue σ) : List (σ × Int × ℚ) → TabularActionValue σ
  | [] => e
  | (s, a, u) :: rest =>
    TabularActionValue.updateSeq (e.update_action_value s a u).2 rest

/-! ### A concrete run of the episode loop

The spec §8 end-to-end scenario: one state, two actions, `alpha = 0.5`,
`discount = 1.0`, reward `-1` per move, with `epsilon = 1/2` and an explicit
random stream.  Used to observe the bootstrap sampling of the Sarsa control
inside one driver iteration of `Train.run_episode`. -/

/-- Fresh single-state, two-action estimator with `epsilon = 1/2`. -/
def c4_av0 : TabularActionValue Nat :=
  TabularActionValue.init [0] [0, 1] (mkRat 1 2) false

/-- Random stream for the run: uniform draws `1, 0, 0` and index draws
`0, 1`. -/
def c4_g0 : RNG := ⟨[1, 0, 0], [0, 1]⟩

/-- Environment before the run (the bookkeeping fields are overwritten by the
first `perform_action`). -/
def c4_env0 : OneStateEnv := ⟨0, -1⟩

/-- First driver half-step: `agent.act_once()`. -/
def c4_step1 : Except Err Int × OneStateEnv × RNG :=
  OneStateEnv.act_once false c4_av0 c4_env0 c4_g0

/-- Environment after the first action. -/
def c4_env1 : OneStateEnv := c4_step1.2.1

/-- Random stream after the first action. -/
def c4_g1 : RNG := c4_step1.2.2

/-- The action `Agent.get_next_action_value` samples at the start of the
subsequent `Sarsa.update` call: by definition of the embedding, the first
thing `Sarsa.update` runs is exactly this `choose_next_action` call on the
current state with the current random stream. -/
def c4_sampled : Except Err Int :=
  (c4_av0.choose_next_action c4_env1.view.agent_state false c4_g1).1

/-- Second driver half-step: `control.update(agent, environment)` under
Sarsa. -/
def c4_upd : Except Err Unit × TabularActionValue Nat × RNG :=
  Sarsa.update (mkRat 1 2) 1 false c4_av0 c4_env1.view c4_g1

/-- Next driver iteration's `agent.act_once()`: the action the behavior
policy actually takes after the update. -/
def c4_next : Except Err Int × OneStateEnv × RNG :=
  OneStateEnv.act_once false c4_upd.2.1 c4_env1 c4_upd.2.2

/-- Concrete single-estimator instance (one state, two actions,
`epsilon = 0`, non-double) used to instantiate universally quantified
theorems. -/
def wAv : TabularActionValue Nat := TabularActionValue.init [0] [0, 1] 0 false

/-- Concrete double-estimator instance (one state, two actions,
`epsilon = 0`, double mode). -/
def wAvD : TabularActionValue Nat := TabularActionValue.init [0] [0, 1] 0 true

/-- Concrete environment view: single state `0`, latest action `0`, latest
reward `-1` (the spec §8 end-to-end transition). -/
def wEnv : EnvView Nat := ⟨0, 0, 0, -1⟩

/-! ## Properties of `listMax` and `argmax` (`np.max` / `np.argmax`) -/

theorem le_listMax : ∀ (l : List ℚ), ∀ x ∈ l, x ≤ listMax l := by
  intro l
  induction l with
  | nil => intro x hx; cases hx
  | cons v rest ih =>
    cases rest with
    | nil =>
      intro x hx
      rcases List.mem_cons.mp hx with h | h
      · simp [listMax, h]
      · cases h
    | cons w rest' =>
      intro x hx
      rcases List.mem_cons.mp hx with h | h
      · rw [h, listMax]; exact le_max_left _ _
      · rw [listMax]; exact le_trans (ih x h) (le_max_right _ _)

theorem argmax_lt_length : ∀ (l : List ℚ), l ≠ [] → argmax l < l.length := by
  intro l
  induction l with
  | nil => intro h; cases h rfl
  | cons v rest ih =>
    intro _
    cases rest with
    | nil => simp [argmax]
    | cons w rest' =>
      rw [argmax]
      by_cases h : v < listMax (w :: rest')
      · rw [if_pos h]
        have := ih (by simp)
        simpa [Nat.succ_lt_succ_iff] using this
      · rw [if_neg h]; simp

theorem getD_argmax :
    ∀ (l : List ℚ), l ≠ [] → l.getD (argmax l) 0 = listMax l := by
  intro l
  induction l with
  | nil => intro h; cases h rfl
  | cons v rest ih =>
    intro _
    cases rest with
    | nil => simp [argmax, listMax]
    | cons w rest' =>
      rw [argmax, listMax]
      by_cases h : v < listMax (w :: rest')
      · rw [if_pos h]
        have hmax : max v (listMax (w :: rest')) = listMax (w :: rest') :=
          max_eq_right (le_of_lt h)
        rw [hmax]
        simpa using ih (by simp)
      · rw [if_neg h]
        have hmax : max v (listMax (w :: rest')) = v :=
          max_eq_left (not_lt.mp h)
        simp [hmax]

theorem getD_lt_listMax_of_lt_argmax :
    ∀ (l : List ℚ), ∀ j < argmax l, l.getD j 0 < listMax l := by
  intro l
  induction l with
  | nil => intro j hj; simp [argmax] at hj
  | cons v rest ih =>
    intro j hj
    cases rest with
    | nil => simp [argmax] at hj
    | cons w rest' =>
      rw [argmax] at hj
      by_cases h : v < listMax (w :: rest')
      · rw [if_pos h] at hj
        have hmax : listMax (v :: w :: rest') = listMax (w :: rest') := by
          rw [listMax]; exact max_eq_right (le_of_lt h)
        rw [hmax]
        cases j with
        | zero => simpa using h
        | succ j' =>
          have hj' : j' < argmax (w :: rest') := Nat.lt_of_succ_lt_succ hj
          simpa using ih j' hj'
      · rw [if_neg h] at hj
        cases hj

theorem getD_le_listMax (l : List ℚ) (j : Nat) (hj : j < l.length) :
    l.getD j 0 ≤ listMax l := by
  have hmem : l.getD j 0 ∈ l := by
    rw [List.getD_eq_getElem l 0 hj]
    exact List.getElem_mem hj
  exact le_listMax l _ hmem

/-! ## Accumulation-loop lemmas for `get_expected_action_value` -/

theorem foldl_add_map {α : Type} (h : α → ℚ) :
    ∀ (l : List α) (c : ℚ),
      l.foldl (fun acc x => acc + h x) c = c + (l.map h).sum := by
  intro l
  induction l with
  | nil => intro c; simp
  | cons x rest ih =>
    intro c
    rw [List.foldl_cons, ih, List.map_cons, List.sum_cons]
    ring

theorem sum_map_ite_split {α : Type} (P : α → Bool) (f g : α → ℚ) :
    ∀ l : List α,
      (l.map fun x => if P x then f x else g x).sum
        = ((l.filter fun x => P x).map f).sum
          + ((l.filter fun x => !P x).map g).sum := by
  intro l
  induction l with
  | nil => simp
  | cons x rest ih =>
    simp only [List.map_cons, List.sum_cons, List.filter_cons]
    cases hx : P x
    · simp [hx, ih]
      ring
    · simp [hx, ih]
      ring

theorem enumFrom_filter_lt {α : Type} :
    ∀ (l : List α) (n k : Nat), k < n →
      (l.enumFrom n).filter (fun p => p.1 == k) = [] := by
  intro l
  induction l with
  | nil => intro n k _; simp [List.enumFrom]
  | cons v rest ih =>
    intro n k hk
    rw [List.enumFrom]
    rw [List.filter_cons_of_neg (by simp; omega)]
    exact ih (n + 1) k (by omega)

theorem enumFrom_filter_eq {α : Type} [Inhabited α] :
    ∀ (l : List α) (n i : Nat), i < l.length →
      (l.enumFrom n).filter (fun p => p.1 == n + i)
        = [(n + i, l.getD i default)] := by
  intro l
  induction l with
  | nil => intro n i hi; simp at hi
  | cons v rest ih =>
    intro n i hi
    rw [List.enumFrom]
    cases i with
    | zero =>
      rw [List.filter_cons_of_pos (by simp)]
      rw [enumFrom_filter_lt rest (n + 1) (n + 0) (by omega)]
      simp
    | succ j =>
      rw [List.filter_cons_of_neg (by simp only [beq_iff_eq]; omega)]
      have hj : j < rest.length := by simpa using Nat.lt_of_succ_lt_succ hi
      have := ih (n + 1) j hj
      have harith : n + 1 + j = n + (j + 1) := by omega
      rw [harith] at this
      rw [this]
      simp [List.getD_cons_succ]

theorem enum_filter_eq (l : List ℚ) (i : Nat) (hi : i < l.length) :
    l.enum.filter (fun p => p.1 == i) = [(i, l.getD i 0)] := by
  have := enumFrom_filter_eq l 0 i hi
  simpa [List.enum] using this

/-! ## The table-shape invariant of spec §3 -/

theorem eval_table_length {σ : Type} [DecidableEq σ]
    (e : TabularActionValue σ) (hWF : e.WF) (s : σ) :
    (e.eval_table s).length = e.actions.length := by
  unfold TabularActionValue.eval_table
  by_cases h : (e.double && e.flag == 0) = true
  · rw [if_pos h]; exact hWF.2 s
  · rw [if_neg h]; exact hWF.1 s

theorem greedy_values_length {σ : Type} [DecidableEq σ]
    (e : TabularActionValue σ) (hWF : e.WF) (s : σ) :
    (e.greedy_values s).length = e.actions.length := by
  unfold TabularActionValue.greedy_values
  by_cases h : e.double = true
  · rw [if_pos h]
    rw [List.length_zipWith, hWF.1 s, hWF.2 s, Nat.min_self]
  · rw [if_neg h]; exact hWF.1 s

/-- Closed form of the `get_expected_action_value` accumulation loop on a
nonempty entry: the first-maximal element gets multiplier
`1 - epsilon*(1 - 1/n)`, every other position gets `epsilon*1/n`. -/
theorem expectedOfEntry_closed (epsilon : ℚ) (n : Nat) (entry : List ℚ)
    (hne : entry ≠ []) :
    TabularActionValue.expectedOfEntry epsilon n entry
      = listMax entry * (1 - epsilon * (1 - 1 / (n : ℚ)))
        + ((entry.enum.filter fun p => !(p.1 == argmax entry)).map
            (fun p => p.2 * (epsilon * 1 / (n : ℚ)))).sum := by
  simp only [TabularActionValue.expectedOfEntry]
  have hbody :
      (fun (acc : ℚ) (p : Nat × ℚ) =>
          if p.1 == argmax entry then
            acc + p.2 * (1 - epsilon * (1 - 1 / (n : ℚ)))
          else acc + p.2 * (epsilon * 1 / (n : ℚ)))
        = fun acc p =>
            acc + (if p.1 == argmax entry then
                p.2 * (1 - epsilon * (1 - 1 / (n : ℚ)))
              else p.2 * (epsilon * 1 / (n : ℚ))) := by
    funext acc p
    by_cases hp : p.1 = argmax entry
    · simp [hp]
    · simp [hp]
  rw [hbody]
  simp only [foldl_add_map, zero_add, sum_map_ite_split]
  have hfil :
      entry.enum.filter (fun p => p.1 == argmax entry)
        = [(argmax entry, entry.getD (argmax entry) 0)] :=
    enum_filter_eq entry (argmax entry) (argmax_lt_length entry hne)
  rw [hfil, getD_argmax entry hne]
  simp

/-! ## The claims -/

/-- C1: every estimator operation (`get_action_value`, `update_action_value`,
`choose_next_action`, `get_expected_action_value`, `get_best_action_value`)
called with a state outside the enumerated state domain fails with
`DomainError`; `get_action_value` and `update_action_value` (the operations
taking an action) called with a valid state and an action outside
`[0, |actions|)` fail with `RangeError`. -/
theorem spec_c1_domain_range_errors {σ : Type} [DecidableEq σ]
    (e : TabularActionValue σ) (sBad s : σ) (a aBad : Int) (u : ℚ)
    (greedy : Bool) (g : RNG)
    (hsBad : sBad ∉ e.states) (hs : s ∈ e.states)
    (haBad : aBad < 0 ∨ (e.actions.length : Int) ≤ aBad) :
    e.get_action_value sBad a = Except.error Err.DomainError ∧
    (e.update_action_value sBad a u).1 = Except.error Err.DomainError ∧
    (e.choose_next_action sBad greedy g).1 = Except.error Err.DomainError ∧
    e.get_expected_action_value sBad = Except.error Err.DomainError ∧
    e.get_best_action_value sBad = Except.error Err.DomainError ∧
    e.get_action_value s aBad = Except.error Err.RangeError ∧
    (e.update_action_value s aBad u).1 = Except.error Err.RangeError := by
  refine ⟨?_, ?_, ?_, ?_, ?_, ?_, ?_⟩ <;>
    simp [TabularActionValue.get_action_value,
      TabularActionValue.update_action_value,
      TabularActionValue.choose_next_action,
      TabularActionValue.get_expected_action_value,
      TabularActionValue.get_best_action_value,
      TabularActionValue.validate_state, TabularActionValue.validate_action,
      hsBad, hs, haBad]

/-- Witness for C1: the concrete single-estimator instance, bad state `5`,
bad action `2` on a two-action set. -/
theorem spec_c1_domain_range_errors_witness :
    ((5 : Nat) ∉ wAv.states ∧ (0 : Nat) ∈ wAv.states ∧
      ((2 : Int) < 0 ∨ (wAv.actions.length : Int) ≤ 2)) ∧
    (wAv.get_action_value 5 0 = Except.error Err.DomainError ∧
      (wAv.update_action_value 5 0 1).1 = Except.error Err.DomainError ∧
      (wAv.choose_next_action 5 false ⟨[], []⟩).1
        = Except.error Err.DomainError ∧
      wAv.get_expected_action_value 5 = Except.error Err.DomainError ∧
      wAv.get_best_action_value 5 = Except.error Err.DomainError ∧
      wAv.get_action_value 0 2 = Except.error Err.RangeError ∧
      (wAv.update_action_value 0 2 1).1 = Except.error Err.RangeError) :=
  ⟨⟨by decide, by decide, by decide⟩,
    spec_c1_domain_range_errors wAv 5 0 0 2 1 false ⟨[], []⟩
      (by decide) (by decide) (by decide)⟩

/-- C8: calling `get_action_value` or `update_action_value` with a state
outside the enumerated domain or an action outside `[0, |actions|)` raises,
and `update_action_value` returns the estimator exactly as it was (both
tables and the toggle unchanged); the read operation is state-free in the
embedding, mirroring the absence of any assignment before the raise in the
source. -/
theorem spec_c8_invalid_leaves_state {σ : Type} [DecidableEq σ]
    (e : TabularActionValue σ) (s : σ) (a : Int) (u : ℚ)
    (hbad : s ∉ e.states ∨ a < 0 ∨ (e.actions.length : Int) ≤ a) :
    (∃ err, e.update_action_value s a u = (Except.error err, e)) ∧
    (∃ err, e.get_action_value s a = Except.error err) := by
  by_cases hs : s ∈ e.states
  · have haBad : a < 0 ∨ (e.actions.length : Int) ≤ a := by
      rcases hbad with h | h
      · exact absurd hs h
      · exact h
    refine ⟨⟨Err.RangeError, ?_⟩, ⟨Err.RangeError, ?_⟩⟩ <;>
      simp [TabularActionValue.update_action_value,
        TabularActionValue.get_action_value, TabularActionValue.validate_state,
        TabularActionValue.validate_action, hs, haBad]
  · refine ⟨⟨Err.DomainError, ?_⟩, ⟨Err.DomainError, ?_⟩⟩ <;>
      simp [TabularActionValue.update_action_value,
        TabularActionValue.get_action_value, TabularActionValue.validate_state,
        hs]

/-- Witness for C8: invalid state `7` on the concrete estimator. -/
theorem spec_c8_invalid_leaves_state_witness :
    ((7 : Nat) ∉ wAv.states ∨ (0 : Int) < 0 ∨ (wAv.actions.length : Int) ≤ 0) ∧
    ((∃ err, wAv.update_action_value 7 0 1 = (Except.error err, wAv)) ∧
      (∃ err, wAv.get_action_value 7 0 = Except.error err)) :=
  ⟨by decide, spec_c8_invalid_leaves_state wAv 7 0 1 (by decide)⟩

/-- C6: in double mode, the greedy branch of `choose_next_action` (reached
with `greedy = true`, or with `greedy = false` when the uniform draw is not
below epsilon) returns the argmax of the elementwise sum of the primary and
auxiliary tables' entries for the state. -/
theorem spec_c6_double_greedy_argmax_of_sum {σ : Type} [DecidableEq σ]
    (e : TabularActionValue σ) (s : σ) (g g' : RNG)
    (hd : e.double = true) (hs : s ∈ e.states)
    (hu : ¬ (g'.rands.headD 1 < e.epsilon)) :
    e.choose_next_action s true g
      = (Except.ok ((argmax (List.zipWith (· + ·) (e.tabular_action_value s)
          (e.auxiliary_tabular_action_value s)) : Nat) : Int), g) ∧
    e.choose_next_action s false g'
      = (Except.ok ((argmax (List.zipWith (· + ·) (e.tabular_action_value s)
          (e.auxiliary_tabular_action_value s)) : Nat) : Int), g'.rand.2) := by
  have hu' : ¬ (g'.rands.head?.getD 1 < e.epsilon) := by simpa using hu
  constructor <;>
    simp [TabularActionValue.choose_next_action,
      TabularActionValue.validate_state, TabularActionValue.greedy_values,
      RNG.rand, hd, hs, hu']

/-- Witness for C6: the concrete double estimator, state `0`, an empty random
stream on the greedy call and a stream whose first draw is `1` on the
non-greedy call. -/
theorem spec_c6_double_greedy_argmax_of_sum_witness :
    (wAvD.double = true ∧ (0 : Nat) ∈ wAvD.states ∧
      ¬ ((RNG.mk [1] []).rands.headD 1 < wAvD.epsilon)) ∧
    wAvD.choose_next_action 0 true ⟨[], []⟩
      = (Except.ok ((argmax (List.zipWith (· + ·) (wAvD.tabular_action_value 0)
          (wAvD.auxiliary_tabular_action_value 0)) : Nat) : Int), ⟨[], []⟩) ∧
    wAvD.choose_next_action 0 false ⟨[1], []⟩
      = (Except.ok ((argmax (List.zipWith (· + ·) (wAvD.tabular_action_value 0)
          (wAvD.auxiliary_tabular_action_value 0)) : Nat) : Int),
          (RNG.mk [1] []).rand.2) :=
  ⟨⟨rfl, by decide, by decide⟩,
    spec_c6_double_greedy_argmax_of_sum wAvD 0 ⟨[], []⟩ ⟨[1], []⟩
      rfl (by decide) (by decide)⟩

/-- C7: `choose_next_action(state, greedy=true)` is deterministic and
consumes no randomness — for every random stream it returns the same action
and the stream unchanged — and the returned action maximizes the current
greedy value list, ties broken by the first (lowest) maximal index. -/
theorem spec_c7_greedy_deterministic {σ : Type} [DecidableEq σ]
    (e : TabularActionValue σ) (s : σ) (g : RNG)
    (hs : s ∈ e.states) (hWF : e.WF) (hn : 0 < e.actions.length) :
    e.choose_next_action s true g
      = (Except.ok ((argmax (e.greedy_values s) : Nat) : Int), g) ∧
    (∀ j < (e.greedy_values s).length,
      (e.greedy_values s).getD j 0
        ≤ (e.greedy_values s).getD (argmax (e.greedy_values s)) 0) ∧
    (∀ j < argmax (e.greedy_values s),
      (e.greedy_values s).getD j 0
        < (e.greedy_values s).getD (argmax (e.greedy_values s)) 0) := by
  have hlen : (e.greedy_values s).length = e.actions.length :=
    greedy_values_length e hWF s
  have hne : e.greedy_values s ≠ [] := by
    intro h
    rw [h] at hlen
    simp at hlen
    omega
  have hmax : (e.greedy_values s).getD (argmax (e.greedy_values s)) 0
      = listMax (e.greedy_values s) := getD_argmax _ hne
  refine ⟨?_, ?_, ?_⟩
  · simp [TabularActionValue.choose_next_action,
      TabularActionValue.validate_state, hs]
  · intro j hj
    rw [hmax]
    exact getD_le_listMax _ j hj
  · intro j hj
    rw [hmax]
    exact getD_lt_listMax_of_lt_argmax _ j hj

/-- Witness for C7: the concrete single estimator, state `0`, a nonempty
random stream (returned untouched). -/
theorem spec_c7_greedy_deterministic_witness :
    ((0 : Nat) ∈ wAv.states ∧ wAv.WF ∧ 0 < wAv.actions.length) ∧
    (wAv.choose_next_action 0 true ⟨[0], [1]⟩
      = (Except.ok ((argmax (wAv.greedy_values 0) : Nat) : Int), ⟨[0], [1]⟩) ∧
    (∀ j < (wAv.greedy_values 0).length,
      (wAv.greedy_values 0).getD j 0
        ≤ (wAv.greedy_values 0).getD (argmax (wAv.greedy_values 0)) 0) ∧
    (∀ j < argmax (wAv.greedy_values 0),
      (wAv.greedy_values 0).getD j 0
        < (wAv.greedy_values 0).getD (argmax (wAv.greedy_values 0)) 0)) :=
  ⟨⟨by decide, ⟨fun _ => rfl, fun _ => rfl⟩, by decide⟩,
    spec_c7_greedy_deterministic wAv 0 ⟨[0], [1]⟩ (by decide)
      ⟨fun _ => rfl, fun _ => rfl⟩ (by decide)⟩

/-- C10: in double mode, `get_action_value` and the pair
`get_best_action_value` / `get_expected_action_value` read opposite tables:
with toggle 0 the former reads the primary table while the latter two are
computed over the auxiliary table, and vice versa with toggle 1. -/
theorem spec_c10_opposite_tables {σ : Type} [DecidableEq σ]
    (e : TabularActionValue σ) (s : σ) (a : Int)
    (hd : e.double = true) (hs : s ∈ e.states)
    (ha : ¬ (a < 0 ∨ (e.actions.length : Int) ≤ a)) :
    (e.flag = 0 →
      e.get_action_value s a
          = Except.ok ((e.tabular_action_value s).getD a.toNat 0) ∧
      e.get_best_action_value s
          = Except.ok (listMax (e.auxiliary_tabular_action_value s)) ∧
      e.get_expected_action_value s
          = Except.ok (TabularActionValue.expectedOfEntry e.epsilon
              e.actions.length (e.auxiliary_tabular_action_value s))) ∧
    (e.flag = 1 →
      e.get_action_value s a
          = Except.ok ((e.auxiliary_tabular_action_value s).getD a.toNat 0) ∧
      e.get_best_action_value s
          = Except.ok (listMax (e.tabular_action_value s)) ∧
      e.get_expected_action_value s
          = Except.ok (TabularActionValue.expectedOfEntry e.epsilon
              e.actions.length (e.tabular_action_value s))) := by
  constructor <;> intro hf <;>
    refine ⟨?_, ?_, ?_⟩ <;>
      simp [TabularActionValue.get_action_value,
        TabularActionValue.get_best_action_value,
        TabularActionValue.get_expected_action_value,
        TabularActionValue.eval_table, TabularActionValue.validate_state,
        TabularActionValue.validate_action, hd, hs, ha, hf]

/-- Witness for C10: the concrete double estimator (toggle 0), state `0`,
action `0`. -/
theorem spec_c10_opposite_tables_witness :
    (wAvD.double = true ∧ (0 : Nat) ∈ wAvD.states ∧
      ¬ ((0 : Int) < 0 ∨ (wAvD.actions.length : Int) ≤ 0)) ∧
    (wAvD.flag = 0 →
      wAvD.get_action_value 0 0
          = Except.ok ((wAvD.tabular_action_value 0).getD (0 : Int).toNat 0) ∧
      wAvD.get_best_action_value 0
          = Except.ok (listMax (wAvD.auxiliary_tabular_action_value 0)) ∧
      wAvD.get_expected_action_value 0
          = Except.ok (TabularActionValue.expectedOfEntry wAvD.epsilon
              wAvD.actions.length (wAvD.auxiliary_tabular_action_value 0))) :=
  ⟨⟨rfl, by decide, by decide⟩,
    (spec_c10_opposite_tables wAvD 0 0 rfl (by decide) (by decide)).1⟩

theorem sum_map_zero {α : Type} (l : List α) :
    (l.map fun _ => (0 : ℚ)).sum = 0 := by
  induction l <;> simp [*]

/-- C5: for every state in the enumerated domain,
`get_expected_action_value(state)` returns exactly
`(1 - epsilon + epsilon/|A|) * maxvalue` plus the sum, over all actions other
than the first-maximal argmax, of `(epsilon/|A|) * value(a)`, computed over
the table the toggle currently selects (`eval_table`). -/
theorem spec_c5_expected_value_formula {σ : Type} [DecidableEq σ]
    (e : TabularActionValue σ) (s : σ)
    (hs : s ∈ e.states) (hWF : e.WF) (hn : 0 < e.actions.length) :
    e.get_expected_action_value s
      = Except.ok
          ((1 - e.epsilon + e.epsilon / (e.actions.length : ℚ))
              * listMax (e.eval_table s)
            + (((e.eval_table s).enum.filter
                  fun p => !(p.1 == argmax (e.eval_table s))).map
                (fun p => e.epsilon / (e.actions.length : ℚ) * p.2)).sum) := by
  have hlen := eval_table_length e hWF s
  have hne : e.eval_table s ≠ [] := by
    intro h
    rw [h] at hlen
    simp at hlen
    omega
  simp only [TabularActionValue.get_expected_action_value,
    TabularActionValue.validate_state, if_pos hs]
  rw [expectedOfEntry_closed _ _ _ hne]
  have hfun : (fun p : Nat × ℚ =>
        p.2 * (e.epsilon * 1 / (e.actions.length : ℚ)))
      = fun p => e.epsilon / (e.actions.length : ℚ) * p.2 := by
    funext p
    ring
  rw [hfun]
  congr 1
  ring

/-- Witness for C5: the concrete single estimator at state `0`. -/
theorem spec_c5_expected_value_formula_witness :
    ((0 : Nat) ∈ wAv.states ∧ wAv.WF ∧ 0 < wAv.actions.length) ∧
    wAv.get_expected_action_value 0
      = Except.ok
          ((1 - wAv.epsilon + wAv.epsilon / (wAv.actions.length : ℚ))
              * listMax (wAv.eval_table 0)
            + (((wAv.eval_table 0).enum.filter
                  fun p => !(p.1 == argmax (wAv.eval_table 0))).map
                (fun p => wAv.epsilon / (wAv.actions.length : ℚ) * p.2)).sum) :=
  ⟨⟨by decide, ⟨fun _ => rfl, fun _ => rfl⟩, by decide⟩,
    spec_c5_expected_value_formula wAv 0 (by decide)
      ⟨fun _ => rfl, fun _ => rfl⟩ (by decide)⟩

/-- C9: with `epsilon = 0`, `get_expected_action_value(state)` equals
`get_best_action_value(state)` for every state in the domain and every table
contents satisfying the shape invariant. -/
theorem spec_c9_expected_eq_best_eps_zero {σ : Type} [DecidableEq σ]
    (e : TabularActionValue σ) (s : σ)
    (heps : e.epsilon = 0) (hs : s ∈ e.states) (hWF : e.WF)
    (hn : 0 < e.actions.length) :
    e.get_expected_action_value s = e.get_best_action_value s := by
  have hlen := eval_table_length e hWF s
  have hne : e.eval_table s ≠ [] := by
    intro h
    rw [h] at hlen
    simp at hlen
    omega
  simp only [TabularActionValue.get_expected_action_value,
    TabularActionValue.get_best_action_value,
    TabularActionValue.validate_state, if_pos hs]
  rw [expectedOfEntry_closed _ _ _ hne, heps]
  have hfun : (fun p : Nat × ℚ => p.2 * (0 * 1 / (e.actions.length : ℚ)))
      = fun _ : Nat × ℚ => (0 : ℚ) := by
    funext p
    ring
  rw [hfun, sum_map_zero]
  ring_nf

/-- Witness for C9: the concrete single estimator (`epsilon = 0`) at
state `0`. -/
theorem spec_c9_expected_eq_best_eps_zero_witness :
    (wAv.epsilon = 0 ∧ (0 : Nat) ∈ wAv.states ∧ wAv.WF ∧
      0 < wAv.actions.length) ∧
    wAv.get_expected_action_value 0 = wAv.get_best_action_value 0 :=
  ⟨⟨rfl, by decide, ⟨fun _ => rfl, fun _ => rfl⟩, by decide⟩,
    spec_c9_expected_eq_best_eps_zero wAv 0 rfl (by decide)
      ⟨fun _ => rfl, fun _ => rfl⟩ (by decide)⟩

theorem getD_set_self (l : List ℚ) (i : Nat) (x : ℚ) (h : i < l.length) :
    (l.set i x).getD i 0 = x := by
  rw [List.getD_eq_getElem (l.set i x) 0 (by simpa using h)]
  exact List.getElem_set_self _

theorem update_preserves_config {σ : Type} [DecidableEq σ]
    (e : TabularActionValue σ) (s : σ) (a : Int) (u : ℚ) :
    (e.update_action_value s a u).2.states = e.states ∧
    (e.update_action_value s a u).2.actions = e.actions ∧
    (e.update_action_value s a u).2.double = e.double := by
  by_cases h1 : s ∈ e.states
  · by_cases h2 : a < 0 ∨ (e.actions.length : Int) ≤ a
    · simp [TabularActionValue.update_action_value,
        TabularActionValue.validate_state, TabularActionValue.validate_action,
        h1, h2]
    · by_cases h3 : (!e.double || e.flag == 0) = true
      · simp [TabularActionValue.update_action_value,
          TabularActionValue.validate_state,
          TabularActionValue.validate_action, h1, h2, h3]
      · simp [TabularActionValue.update_action_value,
          TabularActionValue.validate_state,
          TabularActionValue.validate_action, h1, h2, h3]
  · simp [TabularActionValue.update_action_value,
      TabularActionValue.validate_state, h1]

theorem update_flag_double {σ : Type} [DecidableEq σ]
    (e : TabularActionValue σ) (s : σ) (a : Int) (u : ℚ)
    (hd : e.double = true) (hs : s ∈ e.states)
    (ha : ¬ (a < 0 ∨ (e.actions.length : Int) ≤ a))
    (hf : e.flag = 0 ∨ e.flag = 1) :
    (e.update_action_value s a u).2.flag = 1 - e.flag := by
  rcases hf with hf | hf <;>
    simp [TabularActionValue.update_action_value,
      TabularActionValue.validate_state, TabularActionValue.validate_action,
      hd, hs, ha, hf]

theorem updateSeq_flag_double {σ : Type} [DecidableEq σ] :
    ∀ (l : List (σ × Int × ℚ)) (e : TabularActionValue σ),
      e.double = true → (e.flag = 0 ∨ e.flag = 1) →
      (∀ t ∈ l, t.1 ∈ e.states ∧
        ¬ (t.2.1 < 0 ∨ (e.actions.length : Int) ≤ t.2.1)) →
      (e.updateSeq l).flag
        = if l.length % 2 = 0 then e.flag else 1 - e.flag := by
  intro l
  induction l with
  | nil => intro e _ _ _; simp [TabularActionValue.updateSeq]
  | cons t rest ih =>
    intro e hd hf hv
    obtain ⟨s, a, u⟩ := t
    have hval := hv (s, a, u) (List.mem_cons_self _ _)
    have hcfg := update_preserves_config e s a u
    have hflag : (e.update_action_value s a u).2.flag = 1 - e.flag :=
      update_flag_double e s a u hd hval.1 hval.2 hf
    have hd' : (e.update_action_value s a u).2.double = true := by
      rw [hcfg.2.2, hd]
    have hf' : (e.update_action_value s a u).2.flag = 0 ∨
        (e.update_action_value s a u).2.flag = 1 := by
      rcases hf with h | h <;> simp [hflag, h]
    have hv' : ∀ t ∈ rest, t.1 ∈ (e.update_action_value s a u).2.states ∧
        ¬ (t.2.1 < 0 ∨
          ((e.update_action_value s a u).2.actions.length : Int) ≤ t.2.1) := by
      intro t ht
      rw [hcfg.1, hcfg.2.1]
      exact hv t (List.mem_cons_of_mem _ ht)
    have hrec := ih (e.update_action_value s a u).2 hd' hf' hv'
    simp only [TabularActionValue.updateSeq]
    rw [hrec, hflag]
    rcases Nat.mod_two_eq_zero_or_one rest.length with h2 | h2
    · have h4 : (rest.length + 1) % 2 = 1 := by omega
      rcases hf with h | h <;> simp [h, h2, h4]
    · have h4 : (rest.length + 1) % 2 = 0 := by omega
      rcases hf with h | h <;> simp [h, h2, h4]

/-- C3 (amended): in double mode, every valid `update_action_value` call
alternates the toggle (0→1→0→…): with toggle 0 it mutates only the primary
table and sets the toggle to 1, with toggle 1 it mutates only the auxiliary
table and sets it back to 0, and every even-length sequence of valid updates
returns the toggle to its initial value.  In non-double mode the toggle does
NOT alternate: every valid update call sets it to 1, where it stays. -/
theorem spec_c3_amended_toggle {σ : Type} [DecidableEq σ]
    (e : TabularActionValue σ) (s : σ) (a : Int) (u : ℚ)
    (hs : s ∈ e.states) (ha : ¬ (a < 0 ∨ (e.actions.length : Int) ≤ a))
    (hWF : e.WF) :
    (e.double = true → e.flag = 0 →
      (e.update_action_value s a u).2.flag = 1 ∧
      (e.update_action_value s a u).2.auxiliary_tabular_action_value
        = e.auxiliary_tabular_action_value ∧
      ((e.update_action_value s a u).2.tabular_action_value s).getD a.toNat 0
        = (e.tabular_action_value s).getD a.toNat 0 + u) ∧
    (e.double = true → e.flag = 1 →
      (e.update_action_value s a u).2.flag = 0 ∧
      (e.update_action_value s a u).2.tabular_action_value
        = e.tabular_action_value ∧
      ((e.update_action_value s a u).2.auxiliary_tabular_action_value s).getD
          a.toNat 0
        = (e.auxiliary_tabular_action_value s).getD a.toNat 0 + u) ∧
    (e.double = true → e.flag = 0 ∨ e.flag = 1 →
      ∀ l : List (σ × Int × ℚ),
        (∀ t ∈ l, t.1 ∈ e.states ∧
          ¬ (t.2.1 < 0 ∨ (e.actions.length : Int) ≤ t.2.1)) →
        l.length % 2 = 0 → (e.updateSeq l).flag = e.flag) ∧
    (e.double = false → (e.update_action_value s a u).2.flag = 1) := by
  refine ⟨?_, ?_, ?_, ?_⟩
  · intro hd hf
    have hbound : a.toNat < (e.tabular_action_value s).length := by
      rw [hWF.1 s]
      omega
    refine ⟨?_, ?_, ?_⟩
    · simp [TabularActionValue.update_action_value,
        TabularActionValue.validate_state, TabularActionValue.validate_action,
        hs, ha, hd, hf]
    · simp [TabularActionValue.update_action_value,
        TabularActionValue.validate_state, TabularActionValue.validate_action,
        hs, ha, hd, hf]
    · simp only [TabularActionValue.update_action_value,
        TabularActionValue.validate_state, TabularActionValue.validate_action,
        if_pos hs, if_neg ha, hd, hf, Bool.not_true, Bool.false_or,
        beq_self_eq_true, if_true]
      simp only [TabularActionValue.bumpEntry, eq_self_iff_true, if_true]
      exact getD_set_self _ _ _ hbound
  · intro hd hf
    have hbound : a.toNat < (e.auxiliary_tabular_action_value s).length := by
      rw [hWF.2 s]
      omega
    refine ⟨?_, ?_, ?_⟩
    · simp [TabularActionValue.update_action_value,
        TabularActionValue.validate_state, TabularActionValue.validate_action,
        hs, ha, hd, hf]
    · simp [TabularActionValue.update_action_value,
        TabularActionValue.validate_state, TabularActionValue.validate_action,
        hs, ha, hd, hf]
    · simp only [TabularActionValue.update_action_value,
        TabularActionValue.validate_state, TabularActionValue.validate_action,
        if_pos hs, if_neg ha, hd, hf, Bool.not_true, Bool.false_or]
      rw [if_neg (by decide)]
      simp only [TabularActionValue.bumpEntry, eq_self_iff_true, if_true]
      exact getD_set_self _ _ _ hbound
  · intro hd hf l hv hlen
    rw [updateSeq_flag_double l e hd hf hv, if_pos hlen]
  · intro hd
    simp [TabularActionValue.update_action_value,
      TabularActionValue.validate_state, TabularActionValue.validate_action,
      hs, ha, hd]

/-- Witness for the amended C3: the concrete double estimator (toggle 0),
one valid update flips the toggle and writes only the primary table, and two
valid updates return the toggle to its initial value. -/
theorem spec_c3_amended_toggle_witness :
    ((0 : Nat) ∈ wAvD.states ∧
      ¬ ((0 : Int) < 0 ∨ (wAvD.actions.length : Int) ≤ 0) ∧ wAvD.WF) ∧
    ((wAvD.update_action_value 0 0 1).2.flag = 1 ∧
      (wAvD.update_action_value 0 0 1).2.auxiliary_tabular_action_value
        = wAvD.auxiliary_tabular_action_value ∧
      ((wAvD.update_action_value 0 0 1).2.tabular_action_value 0).getD
          (0 : Int).toNat 0
        = (wAvD.tabular_action_value 0).getD (0 : Int).toNat 0 + 1) ∧
    (wAvD.updateSeq [(0, 0, 1), (0, 0, 1)]).flag = wAvD.flag :=
  ⟨⟨by decide, by decide, ⟨fun _ => rfl, fun _ => rfl⟩⟩,
    (spec_c3_amended_toggle wAvD 0 0 1 (by decide) (by decide)
      ⟨fun _ => rfl, fun _ => rfl⟩).1 rfl rfl,
    (spec_c3_amended_toggle wAvD 0 0 1 (by decide) (by decide)
      ⟨fun _ => rfl, fun _ => rfl⟩).2.2.1 rfl (Or.inl rfl)
      [(0, 0, 1), (0, 0, 1)] (by decide) rfl⟩

/-- Counterexample to C3 as stated: in NON-double mode the toggle does not
alternate — on the concrete fresh non-double estimator (toggle initially 0),
after `2k = 2` update calls the toggle is 1, not its initial value 0. -/
theorem spec_c3_counterexample :
    wAvD.double = true ∧ wAv.double = false ∧ wAv.flag = 0 ∧
    ((wAv.update_action_value 0 0 1).2.update_action_value 0 0 1).2.flag = 1 ∧
    ((wAv.update_action_value 0 0 1).2.update_action_value 0 0 1).2.flag
      ≠ wAv.flag := by
  refine ⟨rfl, rfl, rfl, by decide, by decide⟩

theorem qlearning_update_nondouble {σ : Type} [DecidableEq σ]
    (e : TabularActionValue σ) (env : EnvView σ) (alpha discount : ℚ)
    (hd : e.double = false) (hWF : e.WF)
    (hcur : env.agent_state ∈ e.states)
    (hprev : env.previous_agent_state ∈ e.states)
    (ha : ¬ (env.latest_action < 0 ∨
      (e.actions.length : Int) ≤ env.latest_action)) :
    (QLearning.update alpha discount e env).1 = Except.ok () ∧
    ((QLearning.update alpha discount e env).2.tabular_action_value
        env.previous_agent_state).getD env.latest_action.toNat 0
      = (e.tabular_action_value env.previous_agent_state).getD
          env.latest_action.toNat 0
        + alpha * (env.latest_reward
            + discount * listMax (e.tabular_action_value env.agent_state)
            - (e.tabular_action_value env.previous_agent_state).getD
                env.latest_action.toNat 0) := by
  have hbound : env.latest_action.toNat
      < (e.tabular_action_value env.previous_agent_state).length := by
    rw [hWF.1]
    omega
  constructor
  · simp [QLearning.update, Agent.get_best_next_action_value,
      TabularActionValue.get_best_action_value, TabularActionValue.eval_table,
      TabularActionValue.validate_state, Agent.get_action_value_to_update,
      TabularActionValue.get_action_value, TabularActionValue.validate_action,
      Agent.update_action_value, TabularActionValue.update_action_value,
      hd, hcur, hprev, ha]
  · simp only [QLearning.update, Agent.get_best_next_action_value,
      TabularActionValue.get_best_action_value, TabularActionValue.eval_table,
      TabularActionValue.validate_state, Agent.get_action_value_to_update,
      TabularActionValue.get_action_value, TabularActionValue.validate_action,
      Agent.update_action_value, TabularActionValue.update_action_value,
      if_pos hcur, if_pos hprev, if_neg ha, hd, Bool.not_false, Bool.true_or,
      Bool.false_and, Bool.false_eq_true, if_false, if_true,
      TabularActionValue.bumpEntry, eq_self_iff_true]
    exact getD_set_self _ _ _ hbound

/-- C2: one `QLearning.update` call on a valid transition replaces the stored
value `Q` of the `(previous_state, latest_action)` pair with
`Q + alpha*(r + discount*max_a Q(current_state, a) - Q)` where `r` is the
latest reward (stated in non-double mode, where a single table defines `Q`);
in particular, on the fresh single-state two-action estimator with
`alpha = 1/2`, `discount = 1` and latest reward `-1`, the updated pair's
value becomes `-1/2`. -/
theorem spec_c2_qlearning_update {σ : Type} [DecidableEq σ]
    (e : TabularActionValue σ) (env : EnvView σ) (alpha discount : ℚ)
    (hd : e.double = false) (hWF : e.WF)
    (hcur : env.agent_state ∈ e.states)
    (hprev : env.previous_agent_state ∈ e.states)
    (ha : ¬ (env.latest_action < 0 ∨
      (e.actions.length : Int) ≤ env.latest_action)) :
    ((QLearning.update alpha discount e env).1 = Except.ok () ∧
      ((QLearning.update alpha discount e env).2.tabular_action_value
          env.previous_agent_state).getD env.latest_action.toNat 0
        = (e.tabular_action_value env.previous_agent_state).getD
            env.latest_action.toNat 0
          + alpha * (env.latest_reward
              + discount * listMax (e.tabular_action_value env.agent_state)
              - (e.tabular_action_value env.previous_agent_state).getD
                  env.latest_action.toNat 0)) ∧
    ((QLearning.update (1/2) 1 wAv wEnv).2.tabular_action_value
        (0 : Nat)).getD 0 0 = -(1/2) := by
  refine ⟨qlearning_update_nondouble e env alpha discount hd hWF hcur hprev ha,
    ?_⟩
  have h := qlearning_update_nondouble wAv wEnv (1/2) 1 rfl
    ⟨fun _ => rfl, fun _ => rfl⟩ (by decide) (by decide) (by decide)
  have h2 : (wEnv.latest_action.toNat : Nat) = 0 := rfl
  have h3 : wEnv.previous_agent_state = 0 := rfl
  have h4 : wEnv.agent_state = 0 := rfl
  rw [h2, h3, h4] at h
  rw [h.2]
  have htab : wAv.tabular_action_value 0 = [0, 0] := rfl
  rw [htab]
  have hmax : listMax [0, 0] = 0 := by
    simp [listMax]
  rw [hmax]
  norm_num [wEnv]

/-- Witness for C2: the concrete fresh estimator and the spec §8 transition
(`alpha = 1/2`, `discount = 1`, reward `-1`). -/
theorem spec_c2_qlearning_update_witness :
    (wAv.double = false ∧ wAv.WF ∧ wEnv.agent_state ∈ wAv.states ∧
      wEnv.previous_agent_state ∈ wAv.states ∧
      ¬ (wEnv.latest_action < 0 ∨
        (wAv.actions.length : Int) ≤ wEnv.latest_action)) ∧
    (((QLearning.update (1/2) 1 wAv wEnv).1 = Except.ok () ∧
      ((QLearning.update (1/2) 1 wAv wEnv).2.tabular_action_value
          wEnv.previous_agent_state).getD wEnv.latest_action.toNat 0
        = (wAv.tabular_action_value wEnv.previous_agent_state).getD
            wEnv.latest_action.toNat 0
          + (1/2) * (wEnv.latest_reward
              + 1 * listMax (wAv.tabular_action_value wEnv.agent_state)
              - (wAv.tabular_action_value wEnv.previous_agent_state).getD
                  wEnv.latest_action.toNat 0)) ∧
    ((QLearning.update (1/2) 1 wAv wEnv).2.tabular_action_value
        (0 : Nat)).getD 0 0 = -(1/2)) :=
  ⟨⟨rfl, ⟨fun _ => rfl, fun _ => rfl⟩, by decide, by decide, by decide⟩,
    spec_c2_qlearning_update wAv wEnv (1/2) 1 rfl
      ⟨fun _ => rfl, fun _ => rfl⟩ (by decide) (by decide) (by decide)⟩

theorem choose_next_action_ok {σ : Type} [DecidableEq σ]
    (e : TabularActionValue σ) (s : σ) (greedy : Bool) (g : RNG)
    (hs : s ∈ e.states) (hWF : e.WF) (hn : 0 < e.actions.length)
    (hacts : ∀ x ∈ e.actions, ¬ (x < 0 ∨ (e.actions.length : Int) ≤ x)) :
    ∃ a, (e.choose_next_action s greedy g).1 = Except.ok a ∧
      ¬ (a < 0 ∨ (e.actions.length : Int) ≤ a) := by
  have hglen : (e.greedy_values s).length = e.actions.length :=
    greedy_values_length e hWF s
  have hgne : e.greedy_values s ≠ [] := by
    intro h
    rw [h] at hglen
    simp at hglen
    omega
  have hargb : argmax (e.greedy_values s) < e.actions.length := by
    rw [← hglen]
    exact argmax_lt_length _ hgne
  have hargvalid : ¬ (((argmax (e.greedy_values s) : Nat) : Int) < 0 ∨
      (e.actions.length : Int) ≤ ((argmax (e.greedy_values s) : Nat) : Int)) := by
    omega
  by_cases hgr : greedy = true
  · refine ⟨((argmax (e.greedy_values s) : Nat) : Int), ?_, hargvalid⟩
    simp [TabularActionValue.choose_next_action,
      TabularActionValue.validate_state, hs, hgr]
  · by_cases hu : g.rands.head?.getD 1 < e.epsilon
    · have hlt : g.choices.headD 0 % e.actions.length < e.actions.length :=
        Nat.mod_lt _ hn
      have hmem : e.actions.getD (g.choices.headD 0 % e.actions.length) 0
          ∈ e.actions := by
        rw [List.getD_eq_getElem e.actions 0 hlt]
        exact List.getElem_mem hlt
      refine ⟨e.actions.getD (g.choices.headD 0 % e.actions.length) 0, ?_,
        hacts _ hmem⟩
      simp [TabularActionValue.choose_next_action,
        TabularActionValue.validate_state, hs, hgr, RNG.rand, RNG.choiceIdx,
        hu]
    · refine ⟨((argmax (e.greedy_values s) : Nat) : Int), ?_, hargvalid⟩
      simp [TabularActionValue.choose_next_action,
        TabularActionValue.validate_state, hs, hgr, RNG.rand, hu]

/-- C4 (amended): the bootstrap value `Sarsa.update` uses in its target is
the value of an action freshly sampled from the behavior policy at the
current state — the single `choose_next_action` call made inside
`Agent.get_next_action_value`, consuming the randomness of that call alone.
The sampled action is discarded rather than stored: the update returns only
the new estimator and random stream, so the next `act_once` draws fresh
randomness (after the table has changed) and need not perform the sampled
action. -/
theorem spec_c4_amended_sarsa_bootstrap {σ : Type} [DecidableEq σ]
    (e : TabularActionValue σ) (env : EnvView σ) (alpha discount : ℚ)
    (greedy : Bool) (g : RNG)
    (hWF : e.WF) (hn : 0 < e.actions.length)
    (hacts : ∀ x ∈ e.actions, ¬ (x < 0 ∨ (e.actions.length : Int) ≤ x))
    (hcur : env.agent_state ∈ e.states)
    (hprev : env.previous_agent_state ∈ e.states)
    (ha : ¬ (env.latest_action < 0 ∨
      (e.actions.length : Int) ≤ env.latest_action)) :
    ∃ a v q,
      (e.choose_next_action env.agent_state greedy g).1 = Except.ok a ∧
      e.get_action_value env.agent_state a = Except.ok v ∧
      e.get_action_value env.previous_agent_state env.latest_action
        = Except.ok q ∧
      (Sarsa.update alpha discount greedy e env g).1 = Except.ok () ∧
      (Sarsa.update alpha discount greedy e env g).2.1
        = (e.update_action_value env.previous_agent_state env.latest_action
            (alpha * (env.latest_reward + discount * v - q))).2 ∧
      (Sarsa.update alpha discount greedy e env g).2.2
        = (e.choose_next_action env.agent_state greedy g).2 := by
  obtain ⟨a, hc, hvalid⟩ :=
    choose_next_action_ok e env.agent_state greedy g hcur hWF hn hacts
  have hv : ∃ v, e.get_action_value env.agent_state a = Except.ok v := by
    by_cases hb : (!e.double || e.flag == 0) = true <;>
      simp [TabularActionValue.get_action_value,
        TabularActionValue.validate_state, TabularActionValue.validate_action,
        hcur, hvalid, hb]
  obtain ⟨v, hgv⟩ := hv
  have hq : ∃ q,
      e.get_action_value env.previous_agent_state env.latest_action
        = Except.ok q := by
    by_cases hb : (!e.double || e.flag == 0) = true <;>
      simp [TabularActionValue.get_action_value,
        TabularActionValue.validate_state, TabularActionValue.validate_action,
        hprev, ha, hb]
  obtain ⟨q, hgq⟩ := hq
  have hupd1 : ∀ x : ℚ,
      (e.update_action_value env.previous_agent_state env.latest_action x).1
        = Except.ok () := by
    intro x
    by_cases hb : (!e.double || e.flag == 0) = true <;>
      simp [TabularActionValue.update_action_value,
        TabularActionValue.validate_state, TabularActionValue.validate_action,
        hprev, ha, hb]
  rcases hp : e.choose_next_action env.agent_state greedy g with ⟨aq, g2⟩
  rw [hp] at hc
  simp only at hc
  subst hc
  refine ⟨a, v, q, by simp [hp], hgv, hgq, ?_, ?_, ?_⟩ <;>
    simp only [Sarsa.update, Agent.get_next_action_value, hp, hgv,
      Agent.get_action_value_to_update, hgq, Agent.update_action_value,
      hupd1]

/-- Witness for the amended C4: the concrete `epsilon = 1/2` estimator, the
spec §8 transition, `greedy = false`, and an explicit random stream. -/
theorem spec_c4_amended_sarsa_bootstrap_witness :
    (c4_av0.WF ∧ 0 < c4_av0.actions.length ∧
      (∀ x ∈ c4_av0.actions,
        ¬ (x < 0 ∨ (c4_av0.actions.length : Int) ≤ x)) ∧
      wEnv.agent_state ∈ c4_av0.states ∧
      wEnv.previous_agent_state ∈ c4_av0.states ∧
      ¬ (wEnv.latest_action < 0 ∨
        (c4_av0.actions.length : Int) ≤ wEnv.latest_action)) ∧
    (∃ a v q,
      (c4_av0.choose_next_action wEnv.agent_state false ⟨[0], [0]⟩).1
        = Except.ok a ∧
      c4_av0.get_action_value wEnv.agent_state a = Except.ok v ∧
      c4_av0.get_action_value wEnv.previous_agent_state wEnv.latest_action
        = Except.ok q ∧
      (Sarsa.update 1 1 false c4_av0 wEnv ⟨[0], [0]⟩).1 = Except.ok () ∧
      (Sarsa.update 1 1 false c4_av0 wEnv ⟨[0], [0]⟩).2.1
        = (c4_av0.update_action_value wEnv.previous_agent_state
            wEnv.latest_action
            (1 * (wEnv.latest_reward + 1 * v - q))).2 ∧
      (Sarsa.update 1 1 false c4_av0 wEnv ⟨[0], [0]⟩).2.2
        = (c4_av0.choose_next_action wEnv.agent_state false ⟨[0], [0]⟩).2) :=
  ⟨⟨⟨fun _ => rfl, fun _ => rfl⟩, by decide, by decide, by decide, by decide,
      by decide⟩,
    spec_c4_amended_sarsa_bootstrap c4_av0 wEnv 1 1 false ⟨[0], [0]⟩
      ⟨fun _ => rfl, fun _ => rfl⟩ (by decide) (by decide) (by decide)
      (by decide) (by decide)⟩

/-- Counterexample to C4 as stated: in the concrete run of the episode loop
(`c4_av0`, `epsilon = 1/2`, explicit random streams; first `act_once`
performs action 0), the action sampled inside `Agent.get_next_action_value`
during the subsequent `Sarsa.update` is 0, but the next `act_once` in the
same run performs action 1: the bootstrap action is NOT the action the
behavior policy actually takes next. -/
theorem spec_c4_counterexample :
    c4_step1.1 = Except.ok 0 ∧
    c4_sampled = Except.ok 0 ∧
    c4_upd.1 = Except.ok () ∧
    c4_next.1 = Except.ok 1 ∧
    c4_next.1 ≠ c4_sampled := by
  refine ⟨rfl, rfl, rfl, rfl, ?_⟩
  intro h
  rw [show c4_next.1 = Except.ok 1 from rfl,
    show c4_sampled = Except.ok 0 from rfl] at h
  exact absurd (Except.ok.inj h) (by decide)
